import Mathlib

/-!
# Reaper's Smokehouse: the contact-form pipeline

A shallow embedding of `server.js` (the `POST /api/contact` route with its
limiter, its validation chains, its handler and the error-handling
middleware) and of the submit listener of `js/main.js`.

JavaScript strings are modelled by `String` (well-formed strings, as sequences
of code points).  The middleware libraries the server calls are not part of
the repository: the functions whose behaviour the server relies on (`trim`,
`isLength`, `matches`, `escape`, the chain runner of express-validator, the
counter of express-rate-limit) are modelled after the libraries; `isEmail`,
`normalizeEmail` and the character count used by `isLength` are taken as
parameters (`Validator`).
-/

namespace Smokehouse

/-! ## validator.js string functions used by `contactValidation` -/

/-- Characters matched by the JavaScript regular-expression class `\s`. -/
def isWhiteSpace (c : Char) : Bool :=
  let n := c.toNat
  n = 0x09 || n = 0x0a || n = 0x0b || n = 0x0c || n = 0x0d || n = 0x20 ||
  n = 0xa0 || n = 0x1680 || (0x2000 ≤ n && n ≤ 0x200a) ||
  n = 0x2028 || n = 0x2029 || n = 0x202f || n = 0x205f ||
  n = 0x3000 || n = 0xfeff

/-- Left trim of validator.js: `str.replace(/^\s+/g, '')`. -/
def ltrimChars (cs : List Char) : List Char :=
  cs.dropWhile isWhiteSpace

/-- The loop of validator.js `rtrim`: starting from index `n - 1`, step left
while the character under the index is white space; the result is the index
after the last kept character. -/
def rtrimIndex (cs : List Char) : Nat → Nat
  | 0 => 0
  | n + 1 => if (cs.getD n 'x' |> isWhiteSpace) then rtrimIndex cs n else n + 1

/-- Right trim of validator.js: `str.slice(0, strIndex + 1)`. -/
def rtrimChars (cs : List Char) : List Char :=
  cs.take (rtrimIndex cs cs.length)

/-- The sanitizer `trim()` with no character set: `rtrim(ltrim(str))`. -/
def trim (s : String) : String :=
  ⟨rtrimChars (ltrimChars s.data)⟩

/-- The validator `isLength({ min, max })`: `len >= min && (max === undefined || len <= max)`,
where `len` is the character count validator.js computes for the string. -/
def isLength (len : String → Nat) (min : Nat) (max : Option Nat) (s : String) : Bool :=
  decide (min ≤ len s) &&
    (match max with
     | none => true
     | some m => decide (len s ≤ m))

/-- Membership in the character class `[a-zA-Z\s'-]`. -/
def isNameChar (c : Char) : Bool :=
  ('a'.toNat ≤ c.toNat && c.toNat ≤ 'z'.toNat) ||
  ('A'.toNat ≤ c.toNat && c.toNat ≤ 'Z'.toNat) ||
  isWhiteSpace c || c = Char.ofNat 39 || c = '-'

/-- The validator `matches(/^[a-zA-Z\s'-]+$/)`: the whole string is one or
more characters of the class. -/
def matchesNamePattern (s : String) : Bool :=
  !s.data.isEmpty && s.data.all isNameChar

/-- One `str.replace(/c/g, r)` step on a fixed character `c`. -/
def replaceAll (c : Char) (r : List Char) (cs : List Char) : List Char :=
  cs.flatMap fun x => if x = c then r else [x]

/-- The sanitizer `escape()` of validator.js: eight global replacements, in
the library's order. -/
def escapeChars (cs : List Char) : List Char :=
  cs |> replaceAll '&' "&amp;".data
     |> replaceAll (Char.ofNat 34) "&quot;".data
     |> replaceAll (Char.ofNat 39) "&#x27;".data
     |> replaceAll '<' "&lt;".data
     |> replaceAll '>' "&gt;".data
     |> replaceAll '/' "&#x2F;".data
     |> replaceAll (Char.ofNat 92) "&#x5C;".data
     |> replaceAll (Char.ofNat 96) "&#96;".data

/-- The sanitizer `escape()` on strings. -/
def escape (s : String) : String :=
  ⟨escapeChars s.data⟩

/-! ## express-validator chains -/

/-- A value stored under a body field while its chain runs: a string, or the
JavaScript value `false`, which `normalizeEmail` of validator.js returns
when the local part of the address becomes empty (its declared result type
is `string | false`). -/
inductive FieldValue where
  | str (s : String)
  | jsFalse
  deriving DecidableEq, Repr

/-- String conversion applied by express-validator before a validator or a
standard sanitizer sees the value (`String(false)` is `'false'`). -/
def FieldValue.toStr : FieldValue → String
  | .str s => s
  | .jsFalse => "false"

/-- The functions of validator.js that are taken as given. -/
structure Validator where
  /-- The character count of `isLength`: the length of the string with a
  surrogate pair counted once (recent releases also leave out variation
  selectors) -/
  len : String → Nat
  /-- The function `isEmail(str)` with the default options -/
  isEmail : String → Bool
  /-- The function `normalizeEmail(str)` with the default options -/
  normalizeEmail : String → FieldValue

/-- An entry of `validationResult(req).array()`; only the members the handler
reads are kept. -/
structure ValidationError where
  param : String
  msg : String
  deriving DecidableEq, Repr

/-- An item of a chain's stack: a validator with the text given by
`withMessage`, or a sanitizer. -/
inductive ContextItem where
  | validation (validator : String → Bool) (message : String)
  | sanitization (sanitizer : String → FieldValue)

/-- A chain built by `body(field)`. -/
structure ValidationChain where
  field : String
  stack : List ContextItem

/-- Runs the stack on a value: every item is run in order (the chains use no
`bail()`); a failing validator appends an error, a sanitizer replaces the
value. -/
def runStack (field : String) :
    List ContextItem → FieldValue → List ValidationError → FieldValue × List ValidationError
  | [], v, errs => (v, errs)
  | .validation validator message :: rest, v, errs =>
      if validator v.toStr then runStack field rest v errs
      else runStack field rest v (errs ++ [⟨field, message⟩])
  | .sanitization sanitizer :: rest, v, errs =>
      runStack field rest (sanitizer v.toStr) errs

/-- The request body of `POST /api/contact`, as far as the route reads it. -/
structure ReqBody where
  name : FieldValue
  email : FieldValue
  message : FieldValue
  deriving DecidableEq, Repr

/-- Reads `req.body[field]`; a field the route does not know reads as the empty string. -/
def ReqBody.get (b : ReqBody) (field : String) : FieldValue :=
  if field = "name" then b.name
  else if field = "email" then b.email
  else if field = "message" then b.message
  else .str ""

/-- Writes `req.body[field]`. -/
def ReqBody.set (b : ReqBody) (field : String) (v : FieldValue) : ReqBody :=
  if field = "name" then { b with name := v }
  else if field = "email" then { b with email := v }
  else if field = "message" then { b with message := v }
  else b

/-- The request as the middlewares see it: the body and the errors collected so far. -/
structure Req where
  body : ReqBody
  errors : List ValidationError
  deriving DecidableEq, Repr

/-- A chain used as a middleware: runs on `req.body[field]`, stores the
sanitized value back and the errors on the request. -/
def ValidationChain.run (c : ValidationChain) (req : Req) : Req :=
  let r := runStack c.field c.stack (req.body.get c.field) []
  { body := req.body.set c.field r.1, errors := req.errors ++ r.2 }

/-- The array `contactValidation` of `server.js`. -/
def contactValidation (V : Validator) : List ValidationChain :=
  [ { field := "name",
      stack :=
        [ .sanitization (fun s => .str (trim s)),
          .validation (isLength V.len 1 (some 100)) "Name must be between 1 and 100 characters",
          .validation matchesNamePattern "Name contains invalid characters",
          .sanitization (fun s => .str (escape s)) ] },
    { field := "email",
      stack :=
        [ .sanitization (fun s => .str (trim s)),
          .validation V.isEmail "Please provide a valid email address",
          .sanitization V.normalizeEmail,
          .validation (isLength V.len 0 (some 254)) "Email address is too long" ] },
    { field := "message",
      stack :=
        [ .sanitization (fun s => .str (trim s)),
          .validation (isLength V.len 1 (some 2000)) "Message must be between 1 and 2000 characters",
          .sanitization (fun s => .str (escape s)) ] } ]

/-- Runs the middlewares of an array one after the other. -/
def runChains (cs : List ValidationChain) (req : Req) : Req :=
  cs.foldl (fun r c => c.run r) req

/-! ## Responses -/

/-- An element of the `errors` array of the 400 response. -/
structure FieldError where
  field : String
  message : String
  deriving DecidableEq, Repr

/-- The values that occur in the JSON bodies the server sends. -/
inductive JsonValue where
  | bool (b : Bool)
  | str (s : String)
  | errors (es : List FieldError)
  deriving DecidableEq, Repr

/-- A response: a JSON body sent by `res.status(code).json(object)` (the object
as its list of members, in order), the text sent by the rate limiter, a
response that goes out without a body, or the HTML error page that the final
handler of Express writes when a middleware throws and no error handler is
left. -/
inductive Response where
  | json (status : Nat) (body : List (String × JsonValue))
  | text (status : Nat) (body : String)
  | noBody (status : Nat)
  | errorPage (status : Nat)
  deriving DecidableEq, Repr

/-- An error value reaching the error-handling middleware: the members the
middleware reads; `none` is `undefined`. -/
structure JsError where
  status : Option Nat
  message : Option String
  stack : Option String
  deriving DecidableEq, Repr

/-- The process environment and engine the server runs in. -/
structure Runtime where
  /-- The variable `process.env.NODE_ENV`, `none` when unset -/
  nodeEnv : Option String
  /-- The stack trace the engine attaches to a `TypeError` raised in the handler -/
  trace : String

/-- The test `process.env.NODE_ENV === 'development'`. -/
def Runtime.isDevelopment (rt : Runtime) : Bool :=
  decide (rt.nodeEnv = some "development")

/-! ## `server.js`: the handler of `POST /api/contact` -/

/-- The success body of the handler. -/
def successBody : List (String × JsonValue) :=
  [("success", .bool true),
   ("message", .str "Thank you for your message! We will get back to you soon.")]

/-- Evaluation of the argument of the development `console.log`:
`name.substring(0, 20)`, `email.substring(0, 10)`, `message.length`.  Calling
`substring` on `false` raises a `TypeError`; reading `length` does not.  What
is printed is not modelled. -/
def logArgument (rt : Runtime) (b : ReqBody) : Except JsError Unit :=
  match b.name with
  | .jsFalse =>
      .error ⟨none, some "name.substring is not a function", some rt.trace⟩
  | .str _ =>
    match b.email with
    | .jsFalse =>
        .error ⟨none, some "email.substring is not a function", some rt.trace⟩
    | .str _ => .ok ()

/-- The route handler `(req, res) => { ... }` of `POST /api/contact`: the
response it sends, or the error it throws. -/
def contactHandler (rt : Runtime) (req : Req) : Except JsError Response :=
  if !req.errors.isEmpty then
    .ok (.json 400
      [("success", .bool false),
       ("errors", .errors (req.errors.map fun err => ⟨err.param, err.msg⟩))])
  else
    if rt.isDevelopment then
      match logArgument rt req.body with
      | .error e => .error e
      | .ok () => .ok (.json 200 successBody)
    else
      .ok (.json 200 successBody)

/-- The call `res.status(code).json(object)` inside the error-handling
middleware, as Express and Node carry it out for a request that is neither
`HEAD` nor a conditional `GET`.  Node refuses a status code below 100 or above
999 when the head is written: the call throws, no error handler is left, and
the final handler of Express answers with its own page and status 500.  A
1xx, 204 or 304 response goes out without a body, and so does a 205 response
(Express 4.18 and later).  Every other code goes out with the JSON text. -/
def sendJson (code : Nat) (object : List (String × JsonValue)) : Response :=
  if code < 100 ∨ 999 < code then .errorPage 500
  else if code ≤ 199 ∨ code = 204 ∨ code = 205 ∨ code = 304 then .noBody code
  else .json code object

/-- The error-handling middleware `(err, req, res, next) => { ... }`:
`res.status(err.status || 500).json({ success, message, ...stack })`; a member
whose value is `undefined` is left out of the JSON text. -/
def errorMiddleware (rt : Runtime) (err : JsError) : Response :=
  let status :=
    match err.status with
    | none => 500
    | some 0 => 500
    | some (n + 1) => n + 1
  let message : List (String × JsonValue) :=
    if rt.isDevelopment then
      match err.message with
      | none => []
      | some m => [("message", .str m)]
    else [("message", .str "An error occurred processing your request")]
  let stack : List (String × JsonValue) :=
    if rt.isDevelopment then
      match err.stack with
      | none => []
      | some s => [("stack", .str s)]
    else []
  sendJson status ([("success", .bool false)] ++ message ++ stack)

/-- The text fields of a submission, as the JSON body of the request carries them. -/
structure ContactForm where
  name : String
  email : String
  message : String
  deriving DecidableEq, Repr

/-- The request built from a submitted form. -/
def ContactForm.toReq (f : ContactForm) : Req :=
  { body := ⟨.str f.name, .str f.email, .str f.message⟩, errors := [] }

/-- The request after the validation chains have run. -/
def validated (V : Validator) (f : ContactForm) : Req :=
  runChains (contactValidation V) f.toReq

/-- The route behind the rate gate: `contactValidation`, then the handler; an
error thrown by the handler is answered by the error-handling middleware. -/
def contactEndpoint (V : Validator) (rt : Runtime) (f : ContactForm) : Response :=
  match contactHandler rt (validated V f) with
  | .ok res => res
  | .error err => errorMiddleware rt err

/-! ## The contact limiter -/

/-- The option `windowMs` of `contactLimiter`: `60 * 60 * 1000`. -/
def contactWindowMs : Nat := 60 * 60 * 1000

/-- The option `max` of `contactLimiter`. -/
def contactMax : Nat := 5

/-- The option `message` of `contactLimiter`. -/
def contactLimitMessage : String :=
  "Too many contact form submissions, please try again later."

/-- The counter the limiter keeps for one caller: the hits of the running
window and the time at which the window ends. -/
structure LimiterEntry where
  totalHits : Nat
  resetTime : Nat
  deriving DecidableEq, Repr

/-- Counts one request of the caller at time `now` (milliseconds): a caller
without a running window starts one. -/
def increment (windowMs : Nat) (now : Nat) : Option LimiterEntry → LimiterEntry
  | none => ⟨1, now + windowMs⟩
  | some e =>
      if now < e.resetTime then ⟨e.totalHits + 1, e.resetTime⟩
      else ⟨1, now + windowMs⟩

/-- The response of the limiter to a request over the limit: status 429 and
the configured message. -/
def tooManyRequests : Response :=
  .text 429 contactLimitMessage

/-- The route `app.post('/api/contact', contactLimiter, contactValidation, handler)`
for one caller: the limiter counts the request and either answers it itself
(`totalHits > max`) or passes it on.  The site-wide `generalLimiter`, which
runs before every route, is not part of this model. -/
def postContact (V : Validator) (rt : Runtime) (store : Option LimiterEntry)
    (now : Nat) (f : ContactForm) : Option LimiterEntry × Response :=
  let e := increment contactWindowMs now store
  if e.totalHits > contactMax then (some e, tooManyRequests)
  else (some e, contactEndpoint V rt f)

/-- A sequence of submissions of one caller, each with its arrival time. -/
def submitAll (V : Validator) (rt : Runtime) :
    Option LimiterEntry → List (Nat × ContactForm) → List Response
  | _, [] => []
  | store, (now, f) :: rest =>
      let r := postContact V rt store now f
      r.2 :: submitAll V rt r.1 rest

/-! ## A stand-in for validator.js on concrete addresses -/

/-- Splits at the last `@`, as `email.split('@')` followed by `pop` / `join('@')`:
the local part and the domain. -/
def splitAtLastAt (cs : List Char) : List Char × List Char :=
  let domain := (cs.reverse.takeWhile (· ≠ '@')).reverse
  let user := cs.take (cs.length - domain.length - 1)
  (user, domain)

/-- Lower-cases the ASCII letters. -/
def lowerChars (cs : List Char) : List Char :=
  cs.map Char.toLower

/-- A stand-in for `isEmail`: a non-empty local part without white space and a
dotted domain without white space.  It is used only to evaluate the route at
concrete addresses. -/
def sampleIsEmail (s : String) : Bool :=
  let p := splitAtLastAt s.data
  s.data.contains '@' && !p.1.isEmpty && p.2.contains '.' &&
    !(s.data.any isWhiteSpace)

/-- A stand-in for `normalizeEmail` that follows validator.js for GMail
addresses (sub-address and dots removed, an empty local part gives `false`)
and lower-cases all other addresses. -/
def sampleNormalizeEmail (s : String) : FieldValue :=
  let p := splitAtLastAt s.data
  let domain := lowerChars p.2
  if domain = "gmail.com".data ∨ domain = "googlemail.com".data then
    let user := (p.1.takeWhile (· ≠ '+')).filter (· ≠ '.')
    if user.isEmpty then .jsFalse
    else .str ⟨lowerChars user ++ '@' :: "gmail.com".data⟩
  else .str ⟨lowerChars p.1 ++ '@' :: domain⟩

/-- The stand-in used for concrete evaluations. -/
def sampleValidator : Validator :=
  ⟨String.length, sampleIsEmail, sampleNormalizeEmail⟩

/-! ## `js/main.js`: the submit listener of the contact form -/

/-- A JavaScript value read from the parsed response, as far as the listener
observes it: its truthiness (for `||` and `&&`) and its string conversion
(for template literals and `alert`).  `other` stands for a number, an array
or an object. -/
inductive JsValue where
  | undefined
  | null
  | bool (b : Bool)
  | str (s : String)
  | other (truthy : Bool) (shown : String)
  deriving DecidableEq, Repr

/-- Truthiness of a value. -/
def JsValue.truthy : JsValue → Bool
  | .undefined => false
  | .null => false
  | .bool b => b
  | .str s => decide (s ≠ "")
  | .other t _ => t

/-- The conversion `String(v)`. -/
def JsValue.toStr : JsValue → String
  | .undefined => "undefined"
  | .null => "null"
  | .bool true => "true"
  | .bool false => "false"
  | .str s => s
  | .other _ shown => shown

/-- An element of `result.errors`: `null`, or a value with its members `field`
and `message` (`undefined` when it has none). -/
inductive ErrorItem where
  | null
  | value (field : JsValue) (message : JsValue)
  deriving DecidableEq, Repr

/-- The member `result.errors`: an array, or any other value. -/
inductive ErrorsMember where
  | array (items : List ErrorItem)
  | notArray (v : JsValue)
  deriving DecidableEq, Repr

/-- The result of `response.json()`: `null`, or a value with its members
`errors` and `message`. -/
inductive ParsedBody where
  | null
  | value (errors : ErrorsMember) (message : JsValue)
  deriving DecidableEq, Repr

/-- What happens to the request: `fetch` rejects, or a response arrives with
its `ok` flag and the outcome of `response.json()` (`none` when it rejects). -/
inductive FetchOutcome where
  | rejected
  | response (ok : Bool) (parsed : Option ParsedBody)
  deriving DecidableEq, Repr

/-- The part of the page the listener reads and writes. -/
structure Page where
  /-- The property `submitButton.disabled` -/
  disabled : Bool
  /-- The property `submitButton.textContent` -/
  buttonText : String
  /-- The current values of the three inputs -/
  fields : ContactForm
  /-- The values `contactForm.reset()` restores -/
  defaults : ContactForm
  /-- The texts shown by `alert`, oldest first -/
  alerts : List String
  /-- The bodies posted to `/api/contact`, oldest first -/
  posted : List ContactForm
  deriving DecidableEq, Repr

/-- The call `alert(text)`. -/
def Page.alert (p : Page) (text : String) : Page :=
  { p with alerts := p.alerts ++ [text] }

/-- The call `contactForm.reset()`. -/
def Page.reset (p : Page) : Page :=
  { p with fields := p.defaults }

/-- The expression `value || fallback`, converted for display. -/
def orElse (v : JsValue) (fallback : String) : String :=
  if v.truthy then v.toStr else fallback

/-- The loop `result.errors.forEach(err => { errorMessage += ... })`: the
accumulated text, or `none` when reading a member of a `null` element throws. -/
def appendErrors : String → List ErrorItem → Option String
  | acc, [] => some acc
  | _, .null :: _ => none
  | acc, .value field message :: rest =>
      appendErrors (acc ++ ("- " ++ field.toStr ++ ": " ++ message.toStr ++ "\n")) rest

/-- The `try` block of the listener; `.error` carries the page at the moment
an exception is thrown.  Reading a member of a `null` result throws; the test
`result.errors && Array.isArray(result.errors)` holds exactly when the member
is an array, an array being truthy. -/
def tryBlock (p : Page) (o : FetchOutcome) : Except Page Page :=
  let p := { p with posted := p.posted ++ [p.fields] }
  match o with
  | .rejected => .error p
  | .response _ none => .error p
  | .response _ (some .null) => .error p
  | .response true (some (.value _ message)) =>
      .ok ((p.alert (orElse message
        "Thank you for your message! We will get back to you soon.")).reset)
  | .response false (some (.value errors message)) =>
      match errors with
      | .array items =>
          match appendErrors "Please fix the following errors:\n" items with
          | some errorMessage => .ok (p.alert errorMessage)
          | none => .error p
      | .notArray _ =>
          .ok (p.alert (orElse message "Failed to send message. Please try again later."))

/-- The `catch` block of the listener. -/
def catchBlock (p : Page) : Page :=
  p.alert "Sorry, there was an error sending your message. Please try again later."

/-- The submit listener of `contactForm`, run to completion on the outcome of
its request. -/
def submitListener (p : Page) (o : FetchOutcome) : Page :=
  let originalButtonText := p.buttonText
  let p := { p with disabled := true, buttonText := "Sending..." }
  let p :=
    match tryBlock p o with
    | .ok q => q
    | .error q => catchBlock q
  { p with disabled := false, buttonText := originalButtonText }

/-- The lines of the entries of an errors list, in list order: for each entry
`- `, its field, `: `, its message and a line break. -/
def entryLines : List (JsValue × JsValue) → String
  | [] => ""
  | e :: es => ("- " ++ e.1.toStr ++ ": " ++ e.2.toStr ++ "\n") ++ entryLines es

/-- The notice built from an errors list, in the words of the specification:
the heading line, then one line per entry in list order. -/
def noticeOfErrors (es : List (JsValue × JsValue)) : String :=
  "Please fix the following errors:\n" ++ entryLines es

/-- The number of lines of a text whose lines all end in a line break. -/
def lineCount (s : String) : Nat :=
  s.data.count '\n'

/-! ## The field constraints, in the words of the specification -/

/-- The five field constraints of a contact submission. -/
inductive Constraint where
  | nameLength
  | nameChars
  | emailSyntax
  | emailLength
  | messageLength
  deriving DecidableEq, Repr

/-- The constraints in validation order. -/
def Constraint.all : List Constraint :=
  [.nameLength, .nameChars, .emailSyntax, .emailLength, .messageLength]

/-- The field a constraint belongs to. -/
def Constraint.field : Constraint → String
  | .nameLength => "name"
  | .nameChars => "name"
  | .emailSyntax => "email"
  | .emailLength => "email"
  | .messageLength => "message"

/-- The text reported when a constraint is violated. -/
def Constraint.text : Constraint → String
  | .nameLength => "Name must be between 1 and 100 characters"
  | .nameChars => "Name contains invalid characters"
  | .emailSyntax => "Please provide a valid email address"
  | .emailLength => "Email address is too long"
  | .messageLength => "Message must be between 1 and 2000 characters"

/-- Whether a submission satisfies a constraint. -/
def Constraint.holds (V : Validator) (f : ContactForm) : Constraint → Bool
  | .nameLength =>
      decide (1 ≤ V.len (trim f.name) ∧ V.len (trim f.name) ≤ 100)
  | .nameChars =>
      decide ((trim f.name).data ≠ [] ∧ ∀ c ∈ (trim f.name).data, isNameChar c = true)
  | .emailSyntax => V.isEmail (trim f.email)
  | .emailLength =>
      decide (V.len (V.normalizeEmail (trim f.email)).toStr ≤ 254)
  | .messageLength =>
      decide (1 ≤ V.len (trim f.message) ∧ V.len (trim f.message) ≤ 2000)

/-- The constraints a submission violates, in validation order. -/
def violated (V : Validator) (f : ContactForm) : List Constraint :=
  Constraint.all.filter fun c => !c.holds V f

/-- The report of a violated constraint. -/
def Constraint.report (c : Constraint) : FieldError :=
  ⟨c.field, c.text⟩

/-- The body of the 400 response carrying a list of reports. -/
def failureBody (es : List FieldError) : List (String × JsonValue) :=
  [("success", .bool false), ("errors", .errors es)]

/-- A valid submission, lengths being counted as `isLength` counts them: the
trimmed name has 1 to 100 characters, all of the class `[a-zA-Z\s'-]`; the
trimmed email is a valid address whose normal form is an address of at most
254 characters; the trimmed message has 1 to 2000 characters. -/
def ValidSubmission (V : Validator) (f : ContactForm) : Prop :=
  (1 ≤ V.len (trim f.name) ∧ V.len (trim f.name) ≤ 100) ∧
  ((trim f.name).data ≠ [] ∧ ∀ c ∈ (trim f.name).data, isNameChar c = true) ∧
  V.isEmail (trim f.email) = true ∧
  (∃ e, V.normalizeEmail (trim f.email) = .str e ∧ V.len e ≤ 254) ∧
  (1 ≤ V.len (trim f.message) ∧ V.len (trim f.message) ≤ 2000)

/-! ## Definitions used to state the claims -/

/-- The errors of a one-validator check. -/
def errorIf (ok : Bool) (c : Constraint) : List ValidationError :=
  if ok then [] else [⟨c.field, c.text⟩]

/-- Whether a submission violates a constraint of the given field. -/
def violatesField (V : Validator) (f : ContactForm) (field : String) : Bool :=
  (violated V f).any fun c => decide (c.field = field)

/-- The entities written by `escape`. -/
def entities : List (List Char) :=
  ["&amp;".data, "&quot;".data, "&#x27;".data, "&lt;".data, "&gt;".data,
   "&#x2F;".data, "&#x5C;".data, "&#96;".data]

/-- A character other than `<`, `>`, the double quote and the apostrophe. -/
def notMarkup (c : Char) : Prop :=
  c ≠ '<' ∧ c ≠ '>' ∧ c ≠ Char.ofNat 34 ∧ c ≠ Char.ofNat 39

/-- Every `&` of the text starts one of the entities: every suffix of the
text that begins with `&` begins with an entity. -/
def ampersandsStartEntities (l : List Char) : Prop :=
  ∀ t, t <:+ l → t.head? = some '&' → ∃ e ∈ entities, e <+: t

/-- A text without markup-significant characters: no `<`, `>`, double quote
or apostrophe, and no `&` other than the first character of an entity. -/
def MarkupFree (s : String) : Prop :=
  (∀ c ∈ s.data, notMarkup c) ∧ ampersandsStartEntities s.data

/-- The status the middleware sets, in words: the status of the error when it
is set and not zero, 500 otherwise. -/
def statusOrDefault (err : JsError) : Nat :=
  match err.status with
  | none => 500
  | some n => if n = 0 then 500 else n

/-- A status code whose response carries the body it is given: a code from
200 to 999 other than 204, 205 and 304. -/
def carriesBody (code : Nat) : Prop :=
  200 ≤ code ∧ code ≤ 999 ∧ code ≠ 204 ∧ code ≠ 205 ∧ code ≠ 304

/-- The body sent for every error when NODE_ENV is not `development`. -/
def redactedBody : List (String × JsonValue) :=
  [("success", .bool false),
   ("message", .str "An error occurred processing your request")]

/-- A page before a submission: an enabled button and three filled inputs. -/
def samplePage : Page :=
  { disabled := false,
    buttonText := "Send Message",
    fields := ⟨"Jane Doe", "jane@example.com", "Great ribs!"⟩,
    defaults := ⟨"", "", ""⟩,
    alerts := [],
    posted := [] }

/-! ## The validation chains, computed -/

theorem isLength_eq (len : String → Nat) (min max : Nat) (s : String) :
    isLength len min (some max) s = decide (min ≤ len s ∧ len s ≤ max) := by
  simp [isLength, Bool.decide_and]

theorem matchesNamePattern_eq (s : String) :
    matchesNamePattern s = decide (s.data ≠ [] ∧ ∀ c ∈ s.data, isNameChar c = true) := by
  have hall : s.data.all isNameChar = decide (∀ c ∈ s.data, isNameChar c = true) := by
    rw [Bool.eq_iff_iff]
    simp [List.all_eq_true]
  have hne : (!s.data.isEmpty) = decide (s.data ≠ []) := by
    cases s.data <;> simp
  rw [matchesNamePattern, hall, hne, Bool.decide_and]

theorem toStr_str (s : String) : (FieldValue.str s).toStr = s := rfl

theorem validated_eq (V : Validator) (f : ContactForm) :
    validated V f =
      { body :=
          ⟨.str (escape (trim f.name)), V.normalizeEmail (trim f.email),
           .str (escape (trim f.message))⟩,
        errors :=
          errorIf (Constraint.holds V f .nameLength) .nameLength ++
          errorIf (Constraint.holds V f .nameChars) .nameChars ++
          errorIf (Constraint.holds V f .emailSyntax) .emailSyntax ++
          errorIf (Constraint.holds V f .emailLength) .emailLength ++
          errorIf (Constraint.holds V f .messageLength) .messageLength } := by
  have e1 : ("email" = "name") = False := by decide
  have e2 : ("message" = "name") = False := by decide
  have e3 : ("message" = "email") = False := by decide
  simp only [validated, runChains, contactValidation, List.foldl, ValidationChain.run,
    ContactForm.toReq, ReqBody.get, ReqBody.set, runStack, toStr_str,
    isLength_eq, matchesNamePattern_eq, Constraint.holds, e1, e2, e3, if_true, if_false]
  generalize decide (1 ≤ V.len (trim f.name) ∧ V.len (trim f.name) ≤ 100) = b1
  generalize decide ((trim f.name).data ≠ [] ∧ ∀ c ∈ (trim f.name).data, isNameChar c = true) = b2
  generalize V.isEmail (trim f.email) = b3
  generalize decide (1 ≤ V.len (trim f.message) ∧ V.len (trim f.message) ≤ 2000) = b5
  have h4 : decide (0 ≤ V.len (V.normalizeEmail (trim f.email)).toStr ∧
      V.len (V.normalizeEmail (trim f.email)).toStr ≤ 254)
      = decide (V.len (V.normalizeEmail (trim f.email)).toStr ≤ 254) := by simp
  rw [h4]
  generalize decide (V.len (V.normalizeEmail (trim f.email)).toStr ≤ 254) = b4
  cases b1 <;> cases b2 <;> cases b3 <;> cases b4 <;> cases b5 <;> rfl

theorem errors_eq_violated (V : Validator) (f : ContactForm) :
    (validated V f).errors = (violated V f).map fun c => ⟨c.field, c.text⟩ := by
  rw [validated_eq]
  simp only [violated, Constraint.all, List.filter]
  generalize Constraint.holds V f .nameLength = b1
  generalize Constraint.holds V f .nameChars = b2
  generalize Constraint.holds V f .emailSyntax = b3
  generalize Constraint.holds V f .emailLength = b4
  generalize Constraint.holds V f .messageLength = b5
  cases b1 <;> cases b2 <;> cases b3 <;> cases b4 <;> cases b5 <;> rfl

theorem reports_eq_violated (V : Validator) (f : ContactForm) :
    ((validated V f).errors.map fun err => (⟨err.param, err.msg⟩ : FieldError)) =
      (violated V f).map Constraint.report := by
  rw [errors_eq_violated, List.map_map]
  rfl

theorem errors_isEmpty_iff (V : Validator) (f : ContactForm) :
    (validated V f).errors.isEmpty = true ↔ violated V f = [] := by
  rw [errors_eq_violated]
  cases violated V f <;> simp

/-- A submission that violates a constraint is answered by the 400 response
with the reports of the violated constraints. -/
theorem endpoint_of_violated (V : Validator) (rt : Runtime) (f : ContactForm)
    (h : violated V f ≠ []) :
    contactEndpoint V rt f = .json 400 (failureBody ((violated V f).map Constraint.report)) := by
  have hne : (validated V f).errors.isEmpty = false := by
    rw [Bool.eq_false_iff]
    intro hc
    exact h ((errors_isEmpty_iff V f).mp hc)
  simp only [contactEndpoint, contactHandler, hne, Bool.not_false, if_true, failureBody,
    reports_eq_violated]

/-- A submission that violates no constraint is answered by the success
response, provided the development log does not throw. -/
theorem endpoint_of_not_violated (V : Validator) (rt : Runtime) (f : ContactForm)
    (h : violated V f = [])
    (hlog : rt.isDevelopment = false ∨ ∃ e, V.normalizeEmail (trim f.email) = .str e) :
    contactEndpoint V rt f = .json 200 successBody := by
  have he : (validated V f).errors.isEmpty = true := (errors_isEmpty_iff V f).mpr h
  simp only [contactEndpoint, contactHandler, he, Bool.not_true]
  rcases hlog with hdev | ⟨e, hstr⟩
  · simp [hdev]
  · simp [validated_eq, logArgument, hstr]

/-- A submission that violates no constraint but whose normalised email is
the value `false` makes the development log throw: the response is the one of
the error-handling middleware. -/
theorem endpoint_of_false_email (V : Validator) (rt : Runtime) (f : ContactForm)
    (h : violated V f = []) (hdev : rt.nodeEnv = some "development")
    (hfalse : V.normalizeEmail (trim f.email) = .jsFalse) :
    contactEndpoint V rt f =
      .json 500
        [("success", .bool false),
         ("message", .str "email.substring is not a function"),
         ("stack", .str rt.trace)] := by
  have he : (validated V f).errors.isEmpty = true := (errors_isEmpty_iff V f).mpr h
  have hd : rt.isDevelopment = true := by simp [Runtime.isDevelopment, hdev]
  simp only [contactEndpoint, contactHandler, he, Bool.not_true]
  simp [hd, validated_eq, logArgument, hfalse, errorMiddleware, sendJson]

/-- Outside the case of `endpoint_of_false_email`, the response has one of two
shapes: the success response exactly when no constraint is violated, and the
400 response with a non-empty errors list otherwise. -/
theorem endpoint_shapes (V : Validator) (rt : Runtime) (f : ContactForm)
    (hlog : rt.isDevelopment = false ∨ ∃ e, V.normalizeEmail (trim f.email) = .str e) :
    (violated V f = [] ∧ contactEndpoint V rt f = .json 200 successBody) ∨
    (violated V f ≠ [] ∧ (violated V f).map Constraint.report ≠ [] ∧
      contactEndpoint V rt f = .json 400 (failureBody ((violated V f).map Constraint.report))) := by
  by_cases h : violated V f = []
  · exact Or.inl ⟨h, endpoint_of_not_violated V rt f h hlog⟩
  · refine Or.inr ⟨h, ?_, endpoint_of_violated V rt f h⟩
    intro hc
    exact h (List.map_eq_nil_iff.mp hc)

theorem violated_nil_iff (V : Validator) (f : ContactForm) :
    violated V f = [] ↔ ∀ c, Constraint.holds V f c = true := by
  simp only [violated, List.filter_eq_nil_iff, Constraint.all]
  constructor
  · intro h c
    have := h c (by cases c <;> simp)
    simpa using this
  · intro h c _
    simp [h c]

theorem holds_of_valid (V : Validator) (f : ContactForm) (h : ValidSubmission V f) :
    ∀ c, Constraint.holds V f c = true := by
  obtain ⟨h1, h2, h3, ⟨e, he, hlen⟩, h5⟩ := h
  intro c
  cases c
  · simpa [Constraint.holds] using h1
  · simpa [Constraint.holds] using h2
  · simpa [Constraint.holds] using h3
  · simpa [Constraint.holds, he, FieldValue.toStr] using hlen
  · simpa [Constraint.holds] using h5

theorem endpoint_of_valid (V : Validator) (rt : Runtime) (f : ContactForm)
    (h : ValidSubmission V f) : contactEndpoint V rt f = .json 200 successBody := by
  apply endpoint_of_not_violated V rt f ((violated_nil_iff V f).mpr (holds_of_valid V f h))
  obtain ⟨_, _, _, ⟨e, he, _⟩, _⟩ := h
  exact Or.inr ⟨e, he⟩

theorem violated_sublist (V : Validator) (f : ContactForm) :
    ((violated V f).map Constraint.report).Sublist (Constraint.all.map Constraint.report) :=
  (List.filter_sublist _).map _

theorem count_reports (V : Validator) (f : ContactForm) (field : String) :
    (((violated V f).map Constraint.report).filter fun e => decide (e.field = field)).length =
      ((violated V f).filter fun c => decide (c.field = field)).length := by
  rw [List.filter_map, List.length_map]
  rfl

theorem one_le_of_violatesField (V : Validator) (f : ContactForm) (field : String)
    (h : violatesField V f field = true) :
    1 ≤ ((violated V f).filter fun c => decide (c.field = field)).length := by
  obtain ⟨c, hc, hf⟩ := List.any_eq_true.mp h
  exact List.length_pos_of_mem (List.mem_filter.mpr ⟨hc, hf⟩)

theorem submitAll_running (V : Validator) (rt : Runtime) (R : Nat) :
    ∀ (subs : List (Nat × ContactForm)) (k : Nat), (∀ s ∈ subs, s.1 < R) →
      submitAll V rt (some ⟨k, R⟩) subs =
        (subs.take (contactMax - k)).map (fun s => contactEndpoint V rt s.2) ++
          List.replicate (subs.length - (contactMax - k)) tooManyRequests := by
  intro subs
  induction subs with
  | nil => intro k _; simp [submitAll]
  | cons s rest ih =>
    intro k h
    obtain ⟨now, f⟩ := s
    have hnow : now < R := h (now, f) (List.mem_cons_self _ _)
    have hrest : ∀ s ∈ rest, s.1 < R := fun s hs => h s (List.mem_cons_of_mem _ hs)
    simp only [submitAll, postContact, increment, hnow, if_true]
    by_cases hk : k + 1 > contactMax
    · have h0 : contactMax - k = 0 := by omega
      have h1 : contactMax - (k + 1) = 0 := by omega
      simp only [hk, if_true, ih (k + 1) hrest, h0, h1, List.take_zero, List.map_nil,
        List.nil_append, Nat.sub_zero, List.length_cons, List.replicate_succ]
    · have h0 : contactMax - k = (contactMax - (k + 1)) + 1 := by omega
      simp only [hk, if_false, ih (k + 1) hrest, h0, List.take_succ_cons, List.map_cons,
        List.cons_append, List.length_cons, Nat.add_sub_add_right]

theorem submitAll_fresh (V : Validator) (rt : Runtime) (t0 : Nat) (f0 : ContactForm)
    (rest : List (Nat × ContactForm)) (h : ∀ s ∈ rest, s.1 < t0 + contactWindowMs) :
    submitAll V rt none ((t0, f0) :: rest) =
      (((t0, f0) :: rest).take 5).map (fun s => contactEndpoint V rt s.2) ++
        List.replicate (((t0, f0) :: rest).length - 5) tooManyRequests := by
  have h1 : ¬ (1 > contactMax) := by decide
  simp only [submitAll, postContact, increment, h1, if_false,
    submitAll_running V rt (t0 + contactWindowMs) rest 1 h]
  have h2 : contactMax - 1 = 4 := by decide
  simp [h2]

theorem two_le_length_of_mem {α : Type} (l : List α) (a b : α) (ha : a ∈ l) (hb : b ∈ l)
    (hab : a ≠ b) : 2 ≤ l.length := by
  match l, ha, hb with
  | [x], ha, hb =>
    rw [List.mem_singleton] at ha hb
    exact absurd (ha.trans hb.symm) hab
  | _ :: _ :: _, _, _ => simp

theorem two_le_violated (V : Validator) (f : ContactForm) (field₁ field₂ : String)
    (hne : field₁ ≠ field₂)
    (h₁ : violatesField V f field₁ = true) (h₂ : violatesField V f field₂ = true) :
    2 ≤ (violated V f).length := by
  obtain ⟨c₁, hc₁, hf₁⟩ := List.any_eq_true.mp h₁
  obtain ⟨c₂, hc₂, hf₂⟩ := List.any_eq_true.mp h₂
  apply two_le_length_of_mem _ c₁ c₂ hc₁ hc₂
  intro hc
  apply hne
  rw [← of_decide_eq_true hf₁, ← of_decide_eq_true hf₂, hc]

/-! ## The claims about the server -/

/-- C1: a submission whose trimmed name has 1 to 100 characters of the class
`[a-zA-Z\s'-]`, whose trimmed email is a valid address that normalises to an
address of at most 254 characters, and whose trimmed message has 1 to 2000
characters is answered with status 200 and exactly the fixed success body. -/
theorem valid_submission_gets_success (V : Validator) (rt : Runtime) (f : ContactForm)
    (hnameLength : 1 ≤ V.len (trim f.name) ∧ V.len (trim f.name) ≤ 100)
    (hnameChars : (trim f.name).data ≠ [] ∧ ∀ c ∈ (trim f.name).data, isNameChar c = true)
    (hemail : V.isEmail (trim f.email) = true)
    (hnormal : ∃ e, V.normalizeEmail (trim f.email) = .str e ∧ V.len e ≤ 254)
    (hmessage : 1 ≤ V.len (trim f.message) ∧ V.len (trim f.message) ≤ 2000) :
    contactEndpoint V rt f =
      .json 200
        [("success", .bool true),
         ("message", .str "Thank you for your message! We will get back to you soon.")] :=
  endpoint_of_valid V rt f ⟨hnameLength, hnameChars, hemail, hnormal, hmessage⟩

/-- Witness of C1: the submission of Jane Doe. -/
theorem valid_submission_gets_success_witness :
    contactEndpoint sampleValidator ⟨some "production", ""⟩
        ⟨"Jane Doe", "jane@example.com", "Great ribs!"⟩ =
      .json 200
        [("success", .bool true),
         ("message", .str "Thank you for your message! We will get back to you soon.")] :=
  valid_submission_gets_success sampleValidator ⟨some "production", ""⟩
    ⟨"Jane Doe", "jane@example.com", "Great ribs!"⟩
    (by decide) (by decide) (by decide) ⟨"jane@example.com", by decide, by decide⟩ (by decide)

/-- C2: a submission that violates exactly one of the five field constraints
is answered with status 400 and an errors list of exactly one entry, whose
field is the field of the violated constraint. -/
theorem single_violation_single_entry (V : Validator) (rt : Runtime) (f : ContactForm)
    (h : (violated V f).length = 1) :
    ∃ c e, violated V f = [c] ∧
      contactEndpoint V rt f = .json 400 [("success", .bool false), ("errors", .errors [e])] ∧
      e.field = c.field := by
  obtain ⟨c, hc⟩ := List.length_eq_one.mp h
  refine ⟨c, c.report, hc, ?_, rfl⟩
  have hne : violated V f ≠ [] := by simp [hc]
  rw [endpoint_of_violated V rt f hne, hc]
  rfl

/-- Witness of C2: a name of 101 letters violates the length constraint only. -/
theorem single_violation_single_entry_witness :
    ∃ c e, violated sampleValidator
        ⟨⟨List.replicate 101 'a'⟩, "jane@example.com", "Great ribs!"⟩ = [c] ∧
      contactEndpoint sampleValidator ⟨none, ""⟩
        ⟨⟨List.replicate 101 'a'⟩, "jane@example.com", "Great ribs!"⟩ =
          .json 400 [("success", .bool false), ("errors", .errors [e])] ∧
      e.field = c.field :=
  single_violation_single_entry sampleValidator ⟨none, ""⟩
    ⟨⟨List.replicate 101 'a'⟩, "jane@example.com", "Great ribs!"⟩ (by decide)

/-- C3, as stated, fails: for the submission with an empty name, the email
`not-an-email` and an empty message, the errors list has four entries, two of
them for the field `name` (length and character class), not one per field. -/
theorem empty_name_two_entries :
    contactEndpoint sampleValidator ⟨none, ""⟩ ⟨"", "not-an-email", ""⟩ =
      .json 400
        [("success", .bool false),
         ("errors", .errors
           [⟨"name", "Name must be between 1 and 100 characters"⟩,
            ⟨"name", "Name contains invalid characters"⟩,
            ⟨"email", "Please provide a valid email address"⟩,
            ⟨"message", "Message must be between 1 and 2000 characters"⟩])] ∧
    ((([⟨"name", "Name must be between 1 and 100 characters"⟩,
        ⟨"name", "Name contains invalid characters"⟩,
        ⟨"email", "Please provide a valid email address"⟩,
        ⟨"message", "Message must be between 1 and 2000 characters"⟩] :
          List FieldError).filter fun e => decide (e.field = "name")).length ≠ 1) := by
  constructor
  · decide
  · decide

/-- C3, amended: when two different fields violate their constraints, the
response is the 400 response; its errors list holds, for every field, as many
entries of that field as the field has violated constraints, hence at least
one entry for every violated field, and at least two entries in all. -/
theorem several_fields_all_reported (V : Validator) (rt : Runtime) (f : ContactForm)
    (field₁ field₂ : String) (hne : field₁ ≠ field₂)
    (h₁ : violatesField V f field₁ = true) (h₂ : violatesField V f field₂ = true) :
    ∃ es, contactEndpoint V rt f = .json 400 [("success", .bool false), ("errors", .errors es)] ∧
      2 ≤ es.length ∧
      ∀ field,
        (es.filter fun e => decide (e.field = field)).length =
          ((violated V f).filter fun c => decide (c.field = field)).length ∧
        (violatesField V f field = true →
          1 ≤ (es.filter fun e => decide (e.field = field)).length) := by
  have hv : violated V f ≠ [] := by
    intro hc
    simp [violatesField, hc] at h₁
  refine ⟨(violated V f).map Constraint.report, endpoint_of_violated V rt f hv, ?_, ?_⟩
  · rw [List.length_map]
    exact two_le_violated V f field₁ field₂ hne h₁ h₂
  · intro field
    refine ⟨count_reports V f field, ?_⟩
    intro hfield
    rw [count_reports]
    exact one_le_of_violatesField V f field hfield

/-- Witness of the amended C3: the empty name and the empty message. -/
theorem several_fields_all_reported_witness :
    ∃ es, contactEndpoint sampleValidator ⟨none, ""⟩ ⟨"", "not-an-email", ""⟩ =
        .json 400 [("success", .bool false), ("errors", .errors es)] ∧
      2 ≤ es.length ∧
      ∀ field,
        (es.filter fun e => decide (e.field = field)).length =
          ((violated sampleValidator ⟨"", "not-an-email", ""⟩).filter
            fun c => decide (c.field = field)).length ∧
        (violatesField sampleValidator ⟨"", "not-an-email", ""⟩ field = true →
          1 ≤ (es.filter fun e => decide (e.field = field)).length) :=
  several_fields_all_reported sampleValidator ⟨none, ""⟩ ⟨"", "not-an-email", ""⟩
    "name" "message" (by decide) (by decide) (by decide)

/-- C4, at the failing input: in development, the submission with the email
`+abc@gmail.com` passes every rule of the three fields, its normalised email
is the value `false`, the log line of the handler throws, and the response is
the 500 response of the error-handling middleware. -/
theorem development_log_throws :
    violated sampleValidator ⟨"Jane", "+abc@gmail.com", "hi"⟩ = [] ∧
    (validated sampleValidator ⟨"Jane", "+abc@gmail.com", "hi"⟩).body.email = .jsFalse ∧
    contactEndpoint sampleValidator ⟨some "development", "at server.js:119"⟩
        ⟨"Jane", "+abc@gmail.com", "hi"⟩ =
      .json 500
        [("success", .bool false),
         ("message", .str "email.substring is not a function"),
         ("stack", .str "at server.js:119")] := by
  refine ⟨by decide, by decide, by decide⟩

/-- C5: from a caller without a running window, for every sequence of
submissions arriving within one hour of the first, the first five are
answered by the validation gate and the handler, and every later one by the
limiter's fixed message, whatever the payloads; six valid payloads get five
success responses and one rejection. -/
theorem sixth_submission_rejected (V : Validator) (rt : Runtime) (t0 : Nat) (f0 : ContactForm)
    (rest : List (Nat × ContactForm))
    (hwindow : ∀ s ∈ rest, t0 ≤ s.1 ∧ s.1 < t0 + 60 * 60 * 1000) :
    submitAll V rt none ((t0, f0) :: rest) =
        (((t0, f0) :: rest).take 5).map (fun s => contactEndpoint V rt s.2) ++
          List.replicate (((t0, f0) :: rest).length - 5)
            (.text 429 "Too many contact form submissions, please try again later.") ∧
    (rest.length = 5 → (∀ s ∈ (t0, f0) :: rest, ValidSubmission V s.2) →
      submitAll V rt none ((t0, f0) :: rest) =
        List.replicate 5
            (.json 200
              [("success", .bool true),
               ("message", .str "Thank you for your message! We will get back to you soon.")]) ++
          [.text 429 "Too many contact form submissions, please try again later."]) := by
  have hfresh := submitAll_fresh V rt t0 f0 rest (fun s hs => (hwindow s hs).2)
  refine ⟨hfresh, ?_⟩
  intro hlen hvalid
  rw [hfresh]
  have hmap : (((t0, f0) :: rest).take 5).map (fun s => contactEndpoint V rt s.2) =
      List.replicate 5 (.json 200 successBody) := by
    apply List.eq_replicate_iff.mpr
    constructor
    · simp [hlen]
    · intro b hb
      obtain ⟨s, hs, rfl⟩ := List.mem_map.mp hb
      exact endpoint_of_valid V rt s.2 (hvalid s (List.mem_of_mem_take hs))
  rw [hmap]
  simp [hlen, tooManyRequests, contactLimitMessage, successBody]

/-- Witness of C5: six submissions of Jane Doe, one second apart. -/
theorem sixth_submission_rejected_witness :
    submitAll sampleValidator ⟨some "production", ""⟩ none
        [(0, ⟨"Jane Doe", "jane@example.com", "Great ribs!"⟩),
         (1000, ⟨"Jane Doe", "jane@example.com", "Great ribs!"⟩),
         (2000, ⟨"Jane Doe", "jane@example.com", "Great ribs!"⟩),
         (3000, ⟨"Jane Doe", "jane@example.com", "Great ribs!"⟩),
         (4000, ⟨"Jane Doe", "jane@example.com", "Great ribs!"⟩),
         (5000, ⟨"Jane Doe", "jane@example.com", "Great ribs!"⟩)] =
      List.replicate 5
          (.json 200
            [("success", .bool true),
             ("message", .str "Thank you for your message! We will get back to you soon.")]) ++
        [.text 429 "Too many contact form submissions, please try again later."] :=
  (sixth_submission_rejected sampleValidator ⟨some "production", ""⟩ 0
      ⟨"Jane Doe", "jane@example.com", "Great ribs!"⟩
      [(1000, ⟨"Jane Doe", "jane@example.com", "Great ribs!"⟩),
       (2000, ⟨"Jane Doe", "jane@example.com", "Great ribs!"⟩),
       (3000, ⟨"Jane Doe", "jane@example.com", "Great ribs!"⟩),
       (4000, ⟨"Jane Doe", "jane@example.com", "Great ribs!"⟩),
       (5000, ⟨"Jane Doe", "jane@example.com", "Great ribs!"⟩)]
      (by decide)).2 rfl
    (by
      intro s hs
      have hs2 : s.2 = ⟨"Jane Doe", "jane@example.com", "Great ribs!"⟩ := by
        simp only [List.mem_cons, List.mem_singleton, List.not_mem_nil, or_false] at hs
        rcases hs with h | h | h | h | h | h <;> rw [h]
      rw [hs2]
      exact ⟨by decide, by decide, by decide, ⟨"jane@example.com", by decide, by decide⟩,
        by decide⟩)

/-- C7: when a constraint is violated, the errors list of the 400 response is
the list of the reports of the violated constraints, one entry for every
failing rule, in validation order (name length, name characters, email
syntax, email length, message length); each entry carries the field and the
text of its rule. -/
theorem errors_list_all_failing_rules (V : Validator) (rt : Runtime) (f : ContactForm)
    (h : violated V f ≠ []) :
    contactEndpoint V rt f =
        .json 400
          [("success", .bool false),
           ("errors", .errors
             ((Constraint.all.filter fun c => !c.holds V f).map
               fun c => ⟨c.field, c.text⟩))] ∧
      ((Constraint.all.filter fun c => !c.holds V f).map
          fun c => (⟨c.field, c.text⟩ : FieldError)).Sublist
        [⟨"name", "Name must be between 1 and 100 characters"⟩,
         ⟨"name", "Name contains invalid characters"⟩,
         ⟨"email", "Please provide a valid email address"⟩,
         ⟨"email", "Email address is too long"⟩,
         ⟨"message", "Message must be between 1 and 2000 characters"⟩] :=
  ⟨endpoint_of_violated V rt f h, violated_sublist V f⟩

/-- Witness of C7: a name that is too long and has a digit, with a message that is empty. -/
theorem errors_list_all_failing_rules_witness :
    contactEndpoint sampleValidator ⟨none, ""⟩
        ⟨⟨List.replicate 101 '7'⟩, "jane@example.com", "  "⟩ =
      .json 400
        [("success", .bool false),
         ("errors", .errors
           [⟨"name", "Name must be between 1 and 100 characters"⟩,
            ⟨"name", "Name contains invalid characters"⟩,
            ⟨"message", "Message must be between 1 and 2000 characters"⟩])] :=
  (errors_list_all_failing_rules sampleValidator ⟨none, ""⟩
    ⟨⟨List.replicate 101 '7'⟩, "jane@example.com", "  "⟩ (by decide)).1.trans (by decide)

/-! ## Escaping -/

theorem escapeChars_append (a b : List Char) :
    escapeChars (a ++ b) = escapeChars a ++ escapeChars b := by
  simp [escapeChars, replaceAll, List.flatMap_append]

theorem escapeChars_cons (c : Char) (cs : List Char) :
    escapeChars (c :: cs) = escapeChars [c] ++ escapeChars cs :=
  escapeChars_append [c] cs

theorem escapeChars_single (c : Char) :
    escapeChars [c] ∈ entities ∨ (escapeChars [c] = [c] ∧ c ≠ '&' ∧ notMarkup c) := by
  by_cases h1 : c = '&'
  · subst h1; left; decide
  by_cases h2 : c = Char.ofNat 34
  · subst h2; left; decide
  by_cases h3 : c = Char.ofNat 39
  · subst h3; left; decide
  by_cases h4 : c = '<'
  · subst h4; left; decide
  by_cases h5 : c = '>'
  · subst h5; left; decide
  by_cases h6 : c = '/'
  · subst h6; left; decide
  by_cases h7 : c = Char.ofNat 92
  · subst h7; left; decide
  by_cases h8 : c = Char.ofNat 96
  · subst h8; left; decide
  right
  refine ⟨?_, h1, h4, h5, h2, h3⟩
  simp [escapeChars, replaceAll, h1, h2, h3, h4, h5, h6, h7, h8]

theorem entities_shape :
    ∀ e ∈ entities, e = '&' :: e.tail ∧ (∀ c ∈ e.tail, c ≠ '&') ∧
      ∀ c ∈ e, c ≠ '<' ∧ c ≠ '>' ∧ c ≠ Char.ofNat 34 ∧ c ≠ Char.ofNat 39 := by
  decide

theorem ampersands_cons_plain (c : Char) (l : List Char) (hc : c ≠ '&')
    (hl : ampersandsStartEntities l) : ampersandsStartEntities (c :: l) := by
  intro t ht hhead
  rcases List.suffix_cons_iff.mp ht with rfl | ht
  · simp only [List.head?_cons, Option.some.injEq] at hhead
    exact absurd hhead hc
  · exact hl t ht hhead

theorem ampersands_append_plain (r l : List Char) (hr : ∀ c ∈ r, c ≠ '&')
    (hl : ampersandsStartEntities l) : ampersandsStartEntities (r ++ l) := by
  induction r with
  | nil => simpa using hl
  | cons c r ih =>
    rw [List.cons_append]
    apply ampersands_cons_plain c _ (hr c (List.mem_cons_self _ _))
    exact ih fun x hx => hr x (List.mem_cons_of_mem _ hx)

theorem ampersands_append_entity (e l : List Char) (he : e ∈ entities)
    (hl : ampersandsStartEntities l) : ampersandsStartEntities (e ++ l) := by
  obtain ⟨hshape, htail, _⟩ := entities_shape e he
  intro t ht hhead
  rw [hshape, List.cons_append] at ht
  rcases List.suffix_cons_iff.mp ht with rfl | ht
  · refine ⟨e, he, ?_⟩
    rw [← List.cons_append, ← hshape]
    exact List.prefix_append e l
  · exact ampersands_append_plain e.tail l htail hl t ht hhead

theorem escapeChars_markupFree (cs : List Char) :
    (∀ c ∈ escapeChars cs, notMarkup c) ∧ ampersandsStartEntities (escapeChars cs) := by
  induction cs with
  | nil =>
    constructor
    · intro c hc
      simp [escapeChars, replaceAll] at hc
    · intro t ht hhead
      have : t = [] := by simpa [escapeChars, replaceAll] using ht
      rw [this] at hhead
      simp at hhead
  | cons c cs ih =>
    rw [escapeChars_cons]
    rcases escapeChars_single c with he | ⟨hsingle, hamp, hplain⟩
    · constructor
      · intro x hx
        rcases List.mem_append.mp hx with hx | hx
        · exact (entities_shape _ he).2.2 x hx
        · exact ih.1 x hx
      · exact ampersands_append_entity _ _ he ih.2
    · rw [hsingle]
      constructor
      · intro x hx
        rcases List.mem_append.mp hx with hx | hx
        · rw [List.mem_singleton] at hx
          rw [hx]
          exact hplain
        · exact ih.1 x hx
      · exact ampersands_cons_plain c _ hamp ih.2

theorem escape_markupFree (s : String) : MarkupFree (escape s) :=
  escapeChars_markupFree s.data

/-- C6: for every submission, hence for every accepted one, the name and the
message the handler reads from the request body after the validation chains
are the escaped forms of the trimmed inputs; they contain no `<`, `>`, double
quote or apostrophe, and every `&` in them starts an entity; the text
`<script>` is held as `&lt;script&gt;`. -/
theorem accepted_values_are_escaped (V : Validator) (f : ContactForm) :
    (validated V f).body.name = .str (escape (trim f.name)) ∧
    (validated V f).body.message = .str (escape (trim f.message)) ∧
    MarkupFree (escape (trim f.name)) ∧
    MarkupFree (escape (trim f.message)) ∧
    (validated V ⟨f.name, f.email, "<script>"⟩).body.message = .str "&lt;script&gt;" := by
  refine ⟨?_, ?_, escape_markupFree _, escape_markupFree _, ?_⟩
  · rw [validated_eq]
  · rw [validated_eq]
  · have hscript : escape (trim "<script>") = "&lt;script&gt;" := by decide
    rw [validated_eq, ← hscript]

/-! ## The error-handling middleware -/

theorem sendJson_of_carriesBody (code : Nat) (object : List (String × JsonValue))
    (h : carriesBody code) : sendJson code object = .json code object := by
  obtain ⟨h1, h2, h3, h4, h5⟩ := h
  have hrange : ¬ (code < 100 ∨ 999 < code) := by omega
  have hbody : ¬ (code ≤ 199 ∨ code = 204 ∨ code = 205 ∨ code = 304) := by omega
  simp only [sendJson, hrange, hbody, if_false]

theorem sendJson_json (code status : Nat) (object body : List (String × JsonValue))
    (h : sendJson code object = .json status body) : body = object := by
  unfold sendJson at h
  split at h
  · cases h
  · split at h
    · cases h
    · cases h
      rfl

/-- The handler's own statuses carry their bodies. -/
theorem sendJson_handler_statuses (object : List (String × JsonValue)) :
    sendJson 200 object = .json 200 object ∧ sendJson 400 object = .json 400 object ∧
      sendJson 500 object = .json 500 object := by
  refine ⟨?_, ?_, ?_⟩ <;> exact sendJson_of_carriesBody _ _ (by unfold carriesBody; omega)

theorem errorMiddleware_production (rt : Runtime) (err : JsError)
    (h : rt.nodeEnv ≠ some "development") :
    errorMiddleware rt err = sendJson (statusOrDefault err) redactedBody := by
  have hdev : rt.isDevelopment = false := by simp [Runtime.isDevelopment, h]
  obtain ⟨status, message, stack⟩ := err
  rcases status with _ | _ | n <;> simp [errorMiddleware, hdev, statusOrDefault, redactedBody]

/-- C9, as stated, fails, in production: an error whose status is set to 0 is
answered with status 500, not with its own status; an error whose status is
99 is not answered with the JSON body at all, but with the 500 page of the
final handler; an error whose status is 204 is answered without a body. -/
theorem unusual_status_not_propagated :
    errorMiddleware ⟨some "production", ""⟩ ⟨some 0, some "boom", some "trace"⟩ =
      .json 500
        [("success", .bool false),
         ("message", .str "An error occurred processing your request")] ∧
    errorMiddleware ⟨some "production", ""⟩ ⟨some 99, some "boom", some "trace"⟩ =
      .errorPage 500 ∧
    errorMiddleware ⟨some "production", ""⟩ ⟨some 204, some "boom", some "trace"⟩ =
      .noBody 204 := by
  refine ⟨by decide, by decide, by decide⟩

/-- C9, amended: when NODE_ENV is not `development`, an error whose status is
unset or zero is answered with status 500, and an error whose status is a
code from 200 to 999 other than 204, 205 and 304 is answered with that
status, in both cases with exactly the body `{success: false, message: 'An
error occurred processing your request'}`, without a stack member; whatever
the status, no other JSON body is ever sent, and two errors with the same
status get the same response whatever their message and stack. -/
theorem production_errors_redacted (rt : Runtime) (err₁ err₂ : JsError)
    (hprod : rt.nodeEnv ≠ some "development") :
    (err₁.status = none ∨ err₁.status = some 0 →
      errorMiddleware rt err₁ =
        .json 500
          [("success", .bool false),
           ("message", .str "An error occurred processing your request")]) ∧
    (∀ code, err₁.status = some code →
      200 ≤ code → code ≤ 999 → code ≠ 204 → code ≠ 205 → code ≠ 304 →
      errorMiddleware rt err₁ =
        .json code
          [("success", .bool false),
           ("message", .str "An error occurred processing your request")]) ∧
    (∀ status body, errorMiddleware rt err₁ = .json status body →
      body =
        [("success", .bool false),
         ("message", .str "An error occurred processing your request")]) ∧
    (err₁.status = err₂.status → errorMiddleware rt err₁ = errorMiddleware rt err₂) := by
  have h₁ := errorMiddleware_production rt err₁ hprod
  have h₂ := errorMiddleware_production rt err₂ hprod
  refine ⟨?_, ?_, ?_, ?_⟩
  · intro hstatus
    have hs : statusOrDefault err₁ = 500 := by
      rcases hstatus with h | h <;> simp [statusOrDefault, h]
    rw [h₁, hs]
    exact (sendJson_handler_statuses redactedBody).2.2
  · intro code hcode h200 h999 h204 h205 h304
    have hs : statusOrDefault err₁ = code := by
      have : code ≠ 0 := by omega
      simp [statusOrDefault, hcode, this]
    rw [h₁, hs]
    exact sendJson_of_carriesBody code redactedBody ⟨h200, h999, h204, h205, h304⟩
  · intro status body hjson
    rw [h₁] at hjson
    exact sendJson_json _ _ _ _ hjson
  · intro hstatus
    rw [h₁, h₂]
    simp [statusOrDefault, hstatus]

/-- Witness of the amended C9: two errors with status 404 in production. -/
theorem production_errors_redacted_witness :
    errorMiddleware ⟨some "production", ""⟩ ⟨some 404, some "secret path", some "at a.js:1"⟩ =
        .json 404
          [("success", .bool false),
           ("message", .str "An error occurred processing your request")] ∧
    errorMiddleware ⟨some "production", ""⟩ ⟨some 404, some "secret path", some "at a.js:1"⟩ =
      errorMiddleware ⟨some "production", ""⟩ ⟨some 404, none, none⟩ :=
  ⟨(production_errors_redacted ⟨some "production", ""⟩
      ⟨some 404, some "secret path", some "at a.js:1"⟩ ⟨some 404, none, none⟩
      (by decide)).2.1 404 rfl (by decide) (by decide) (by decide) (by decide) (by decide),
   (production_errors_redacted ⟨some "production", ""⟩
      ⟨some 404, some "secret path", some "at a.js:1"⟩ ⟨some 404, none, none⟩
      (by decide)).2.2.2 rfl⟩

/-! ## The claims about the form client -/

/-- C8: whatever the outcome of the request (`fetch` rejects, the body does
not parse, a 2xx response, a non-2xx response with or without an errors
list), when the listener finishes the submit button is enabled and its label
is the label it had when the listener started. -/
theorem submit_button_restored (p : Page) (o : FetchOutcome) :
    (submitListener p o).disabled = false ∧
    (submitListener p o).buttonText = p.buttonText := by
  constructor <;> rfl

theorem appendErrors_values (es : List (JsValue × JsValue)) :
    ∀ acc : String,
      appendErrors acc (es.map fun e => ErrorItem.value e.1 e.2) = some (acc ++ entryLines es) := by
  induction es with
  | nil =>
    intro acc
    simp [appendErrors, entryLines]
  | cons e es ih =>
    intro acc
    simp only [List.map_cons, appendErrors, ih, entryLines, String.append_assoc]

theorem lineCount_append (a b : String) : lineCount (a ++ b) = lineCount a + lineCount b := by
  simp [lineCount, String.data_append, List.count_append]

theorem lineCount_of_not_mem (s : String) (h : '\n' ∉ s.data) : lineCount s = 0 := by
  simp [lineCount, List.count_eq_zero, h]

theorem lineCount_entryLines (es : List (JsValue × JsValue))
    (h : ∀ e ∈ es, '\n' ∉ e.1.toStr.data ∧ '\n' ∉ e.2.toStr.data) :
    lineCount (entryLines es) = es.length := by
  induction es with
  | nil => rfl
  | cons e es ih =>
    have he := h e (List.mem_cons_self _ _)
    have h1 : lineCount "- " = 0 := by decide
    have h2 : lineCount ": " = 0 := by decide
    have h3 : lineCount "\n" = 1 := by decide
    simp only [entryLines, lineCount_append, h1, h2, h3, lineCount_of_not_mem _ he.1,
      lineCount_of_not_mem _ he.2, ih fun x hx => h x (List.mem_cons_of_mem _ hx),
      List.length_cons]
    omega

theorem listener_on_error_list (p : Page) (es : List (JsValue × JsValue)) (message : JsValue) :
    submitListener p
        (.response false
          (some (.value (.array (es.map fun e => ErrorItem.value e.1 e.2)) message))) =
      { p with
        disabled := false,
        alerts := p.alerts ++ [noticeOfErrors es],
        posted := p.posted ++ [p.fields] } := by
  simp [submitListener, tryBlock, appendErrors_values, Page.alert, noticeOfErrors]

theorem listener_without_error_list (p : Page) (v message : JsValue) :
    submitListener p (.response false (some (.value (.notArray v) message))) =
      { p with
        disabled := false,
        alerts := p.alerts ++
          [if message.truthy then message.toStr
           else "Failed to send message. Please try again later."],
        posted := p.posted ++ [p.fields] } := by
  simp [submitListener, tryBlock, Page.alert, orElse]

/-- C10, as stated, fails: an errors array of one entry whose message has a
line break gives a notice of three lines, not two; a body without an errors
array whose message is the empty string gives the fixed notice, not the
body's message; and a `null` entry of the errors array, or a `null` body,
gives the notice of the `catch` block. -/
theorem notice_line_count_and_empty_message :
    (submitListener samplePage
        (.response false
          (some (.value (.array [.value (.str "name") (.str "too\nlong")]) .undefined)))).alerts =
      ["Please fix the following errors:\n- name: too\nlong\n"] ∧
    lineCount "Please fix the following errors:\n- name: too\nlong\n" = 3 ∧
    (submitListener samplePage
        (.response false (some (.value (.notArray .undefined) (.str ""))))).alerts =
      ["Failed to send message. Please try again later."] ∧
    (submitListener samplePage
        (.response false (some (.value (.array [.null]) .undefined)))).alerts =
      ["Sorry, there was an error sending your message. Please try again later."] ∧
    (submitListener samplePage (.response false (some .null))).alerts =
      ["Sorry, there was an error sending your message. Please try again later."] := by
  refine ⟨by decide, by decide, by decide, by decide, by decide⟩

/-- C10, amended: for a non-2xx response whose body has an errors array of
entries that are not `null`, the one notice shown is the heading line
followed by one line `- field: message` per entry in list order, and the form
keeps its values; the notice has n + 1 lines when no field or message text
contains a line break.  When the body is not `null` and its member `errors`
is not an array, the notice is the body's message if that is truthy (a
non-empty string in particular), and the fixed text `Failed to send message.
Please try again later.` otherwise. -/
theorem notice_of_error_response (p : Page) (es : List (JsValue × JsValue))
    (v message : JsValue) :
    ((submitListener p
        (.response false
          (some (.value (.array (es.map fun e => ErrorItem.value e.1 e.2)) message)))).alerts =
        p.alerts ++
          ["Please fix the following errors:\n" ++ entryLines es] ∧
      (submitListener p
        (.response false
          (some (.value (.array (es.map fun e => ErrorItem.value e.1 e.2)) message)))).fields =
        p.fields ∧
      ((∀ e ∈ es, '\n' ∉ e.1.toStr.data ∧ '\n' ∉ e.2.toStr.data) →
        lineCount ("Please fix the following errors:\n" ++ entryLines es) = es.length + 1)) ∧
    ((submitListener p (.response false (some (.value (.notArray v) message)))).alerts =
        p.alerts ++
          [if message.truthy then message.toStr
           else "Failed to send message. Please try again later."] ∧
      (submitListener p (.response false (some (.value (.notArray v) message)))).fields =
        p.fields) := by
  refine ⟨⟨?_, ?_, ?_⟩, ?_, ?_⟩
  · rw [listener_on_error_list]
    rfl
  · rw [listener_on_error_list]
  · intro h
    have hhead : lineCount "Please fix the following errors:\n" = 1 := by decide
    rw [lineCount_append, hhead, lineCount_entryLines es h]
    omega
  · rw [listener_without_error_list]
  · rw [listener_without_error_list]

end Smokehouse
